import Mathlib

/-!
Verification development for the LLM code-generation benchmark harness.

The harness compares strategies for a filter/group/average aggregation task:
a seeded data generator, a reference computation used as scoring oracle, a
scorer with a 0.1 tolerance, a subprocess "sandbox" for model-generated code,
and a sorting-accuracy driver.  JS numbers are modeled as rationals except in
the seeded linear-congruential generator, whose state update multiplies past
2^53 and therefore depends on IEEE double rounding; there the rounding is
modeled exactly on integers.  Locale string comparison for ASCII identifiers
of the form "userN" is modeled as code-point lexicographic comparison.
-/

/-- Event record of the harness: a user identifier and an integer duration. -/
structure Event where
  userId : String
  duration : Int
deriving DecidableEq

/-- UserAverage record: a user id together with the average duration. -/
structure UserAverage where
  id : String
  avg : ℚ
deriving DecidableEq

/-- Number of distinct users in the generator pool (source constant NUM_USERS). -/
def NUM_USERS : ℕ := 50

/-- Smallest generated duration (source constant MIN_DURATION). -/
def MIN_DURATION : ℕ := 10

/-- Largest generated duration (source constant MAX_DURATION). -/
def MAX_DURATION : ℕ := 200

/-- Lexicographic comparison of character lists by code point; models the
ascending order induced by the comparator a.id.localeCompare(b.id) on the
ASCII identifiers used by the harness. -/
def lexLe : List Char → List Char → Bool
  | [], _ => true
  | _ :: _, [] => false
  | a :: as, b :: bs =>
    if a.toNat < b.toNat then true
    else if b.toNat < a.toNat then false
    else lexLe as bs

/-- Order on UserAverage records by id, as used by the sort steps. -/
def idLe (a b : UserAverage) : Prop := lexLe a.id.data b.id.data = true

instance : DecidableRel idLe :=
  fun a b => inferInstanceAs (Decidable (lexLe a.id.data b.id.data = true))

instance : IsTotal UserAverage idLe where
  total a b := by
    suffices h : ∀ x y : List Char, lexLe x y = true ∨ lexLe y x = true from
      h a.id.data b.id.data
    intro x
    induction x with
    | nil => intro y; left; rfl
    | cons c cs ih =>
      intro y
      cases y with
      | nil => right; rfl
      | cons d ds =>
        simp only [lexLe]
        rcases Nat.lt_trichotomy c.toNat d.toNat with h | h | h
        · left; simp [h]
        · have h1 : ¬ c.toNat < d.toNat := by omega
          have h2 : ¬ d.toNat < c.toNat := by omega
          simpa [h1, h2] using ih ds
        · right; simp [h]

instance : IsTrans UserAverage idLe where
  trans a b c := by
    suffices h : ∀ x y z : List Char,
        lexLe x y = true → lexLe y z = true → lexLe x z = true from
      h a.id.data b.id.data c.id.data
    intro x
    induction x with
    | nil => intro y z _ _; rfl
    | cons u us ih =>
      intro y z hxy hyz
      cases y with
      | nil => simp [lexLe] at hxy
      | cons v vs =>
        cases z with
        | nil => simp [lexLe] at hyz
        | cons w ws =>
          simp only [lexLe] at hxy hyz ⊢
          by_cases h1 : u.toNat < v.toNat
          · by_cases h2 : v.toNat < w.toNat
            · have h5 : u.toNat < w.toNat := by omega
              simp [h5]
            · by_cases h4 : w.toNat < v.toNat
              · simp [h2, h4] at hyz
              · have h5 : u.toNat < w.toNat := by omega
                simp [h5]
          · by_cases h3 : v.toNat < u.toNat
            · simp [h1, h3] at hxy
            · by_cases h2 : v.toNat < w.toNat
              · have h5 : u.toNat < w.toNat := by omega
                simp [h5]
              · by_cases h4 : w.toNat < v.toNat
                · simp [h2, h4] at hyz
                · have h5 : ¬ u.toNat < w.toNat := by omega
                  have h6 : ¬ w.toNat < u.toNat := by omega
                  rw [if_neg h1, if_neg h3] at hxy
                  rw [if_neg h2, if_neg h4] at hyz
                  rw [if_neg h5, if_neg h6]
                  exact ih vs ws hxy hyz

/-- Sort a list of UserAverage records ascending by id; models the source's
result.sort((a, b) => a.id.localeCompare(b.id)) steps (JS sorts are stable;
insertion sort is stable). -/
def sortById (l : List UserAverage) : List UserAverage :=
  List.insertionSort idLe l

/-- Two-decimal rounding: Math.round(x * 100) / 100.  Mathlib's round is
floor (x + 1/2), which agrees with JS Math.round (half toward plus
infinity). -/
def round2 (x : ℚ) : ℚ := (round (x * 100) : ℤ) / 100

/-- Filter step of the reference computation: keep events with
duration >= 50. -/
def filterEvents (events : List Event) : List Event :=
  events.filter (fun e => decide (50 ≤ e.duration))

/-- Keys of Object.groupBy(filtered, e => e.userId) in the order
Object.entries yields them: the identifiers "userN" are not array indices, so
entries appear in first-occurrence (insertion) order. -/
def groupKeys (l : List Event) : List String :=
  l.foldl (fun ks e => if e.userId ∈ ks then ks else ks ++ [e.userId]) []

/-- Group of events sharing the given userId. -/
def groupOf (l : List Event) (k : String) : List Event :=
  l.filter (fun e => e.userId == k)

/-- Average duration over a group:
group.reduce((a, b) => a + b.duration, 0) / group.length. -/
def groupAvg (g : List Event) : ℚ :=
  (g.map (fun e => (e.duration : ℚ))).sum / (g.length : ℚ)

/-- Reference Computation (computeCorrectAnswer in llm-codegen-test.ts and
llm-context-test.ts): filter duration >= 50, group by userId, round each
group's average to 2 decimals, sort by id. -/
def computeCorrectAnswer (events : List Event) : List UserAverage :=
  sortById
    ((groupKeys (filterEvents events)).map
      (fun k => { id := k, avg := round2 (groupAvg (groupOf (filterEvents events) k)) }))

/-- Local-benchmark processing function (processEvents in process-events.ts):
filter duration >= 50, group by userId, average each group.  The source
neither rounds the averages nor sorts the result. -/
def processEvents (events : List Event) : List UserAverage :=
  (groupKeys (filterEvents events)).map
    (fun k => { id := k, avg := groupAvg (groupOf (filterEvents events) k) })

/-- Normalization applied to one parsed record before scoring:
r maps to the record with the same id and the 2-decimal rounded avg. -/
def normalizeRecord (r : UserAverage) : UserAverage :=
  { id := r.id, avg := round2 r.avg }

/-- Normalize-and-sort step shared by executeGeneratedCode and
askLLMToCompute: map every record to its normalization, then sort by id. -/
def normalizeAndSort (l : List UserAverage) : List UserAverage :=
  sortById (l.map normalizeRecord)

/-- Scorer helper: actual.find(a => a.id === exp.id), the first actual entry
with the given id. -/
def findById (actual : List UserAverage) (i : String) : Option UserAverage :=
  actual.find? (fun a => a.id == i)

/-- Loop of compareResults: for each expected entry, look up the first actual
entry with the same id and count it correct when the averages differ by
strictly less than 0.1. -/
def countCorrect (expected actual : List UserAverage) : ℕ :=
  expected.foldl
    (fun acc exp =>
      match findById actual exp.id with
      | some act => if |act.avg - exp.avg| < 1 / 10 then acc + 1 else acc
      | none => acc)
    0

/-- Predicate describing which expected entries the Scorer counts correct:
the first actual entry carrying the same id exists and its avg differs from
the expected avg by strictly less than 0.1. -/
def firstMatchCorrect (actual : List UserAverage) (exp : UserAverage) : Bool :=
  match findById actual exp.id with
  | some act => decide (|act.avg - exp.avg| < 1 / 10)
  | none => false

/-- Division as JS performs it in the accuracy computation: 0 / 0 is NaN,
modeled as none; every other quotient is the exact rational. -/
def jsDiv (a b : ℚ) : Option ℚ :=
  if b = 0 then none else some (a / b)

/-- Result record of compareResults.  The source field named "match" is a
reserved word in Lean and is modeled as isMatch; accuracy is an Option
because Math.round propagates the NaN arising from 0 / 0. -/
structure CompareOutcome where
  isMatch : Bool
  correctCount : ℕ
  totalCount : ℕ
  accuracy : Option ℤ
deriving DecidableEq

/-- Scorer (compareResults in llm-codegen-test.ts and llm-context-test.ts).
An absent actual scores zero; otherwise correctCount is counted per expected
entry, match requires correctCount = expected.length and equal lengths, and
accuracy is Math.round((correctCount / expected.length) * 100). -/
def compareResults (expected : List UserAverage) (actual : Option (List UserAverage)) :
    CompareOutcome :=
  match actual with
  | none =>
    { isMatch := false, correctCount := 0, totalCount := expected.length,
      accuracy := some 0 }
  | some act =>
    { isMatch := decide (countCorrect expected act = expected.length)
        && decide (act.length = expected.length),
      correctCount := countCorrect expected act,
      totalCount := expected.length,
      accuracy := (jsDiv (countCorrect expected act : ℚ) (expected.length : ℚ)).map
        (fun q => round (q * 100)) }

/-- Outcome of the spawned subprocess as seen by the close handler: exit code
and the captured stdout and stderr streams. -/
structure ProcOutcome where
  exitCode : Int
  stdout : String
  stderr : String

/-- Result record of executeGeneratedCode (latency omitted: wall-clock time
is outside the embedding). -/
structure ExecResult where
  result : Option (List UserAverage)
  error : Option String
deriving DecidableEq

/-- Close handler of executeGeneratedCode in llm-codegen-test.ts, as a pure
function of the process outcome.  JSON.parse of the trimmed stdout is an
opaque parameter; a nonempty stderr string is truthy in JS, so a nonzero exit
reports stderr when it is nonempty and the exit-code message otherwise. -/
def executeGeneratedCode (parse : String → Option (List UserAverage))
    (o : ProcOutcome) : ExecResult :=
  if o.exitCode ≠ 0 then
    { result := none,
      error := some (if o.stderr = "" then
        "Process exited with code " ++ toString o.exitCode
      else o.stderr) }
  else
    match parse o.stdout.trim with
    | some r => { result := some (normalizeAndSort r), error := none }
    | none =>
      { result := none,
        error := some ("Failed to parse output: " ++ o.stdout.take 200) }

/-- Exact whole-sequence equality check of the sorting driver (arraysEqual in
llm-sort.ts): equal length and equal element at every position. -/
def arraysEqual (a b : List Int) : Bool :=
  if a.length ≠ b.length then false
  else (a.zip b).all (fun p => p.1 == p.2)

/-- Ascending numeric sort [...numbers].sort((a, b) => a - b) of the sorting
driver. -/
def sortNumeric (l : List Int) : List Int :=
  List.insertionSort (fun a b : Int => a ≤ b) l

/-- Response of askLLMToSort: a parsed array or an error string. -/
structure SortResponse where
  result : Option (List Int)
  error : Option String

/-- JS truthiness of the optional error string: absent and empty strings are
falsy. -/
def jsTruthyStr : Option String → Bool
  | none => false
  | some s => !(s == "")

/-- Scoring core of runSingleTest in llm-sort.ts: a sample passes exactly
when no error occurred, a result is present, and the returned array equals
the input sorted ascending numerically. -/
def runSingleTest (numbers : List Int) (resp : SortResponse) : Bool :=
  if jsTruthyStr resp.error || resp.result.isNone then false
  else arraysEqual (sortNumeric numbers) (resp.result.getD [])

/-- Size of one unit in the last place for an integer below 2^62 rounded to a
double: 2 to the power max(0, bitlength - 53), tabulated. -/
def ulpSize (n : ℕ) : ℕ :=
  if n < 9007199254740992 then 1
  else if n < 18014398509481984 then 2
  else if n < 36028797018963968 then 4
  else if n < 72057594037927936 then 8
  else if n < 144115188075855872 then 16
  else if n < 288230376151711744 then 32
  else if n < 576460752303423488 then 64
  else if n < 1152921504606846976 then 128
  else if n < 2305843009213693952 then 256
  else 512

/-- Round a nonnegative integer below 2^62 to the nearest IEEE double
(53-bit significand, ties to even).  The products appearing in the seeded
generator exceed 2^53, so this rounding is what JS actually computes. -/
def flInt (n : ℕ) : ℕ :=
  let u := ulpSize n
  let q := n / u
  let r := n % u
  if 2 * r < u then q * u
  else if u < 2 * r then (q + 1) * u
  else if q % 2 = 0 then q * u else (q + 1) * u

/-- State update of the seeded generator in llm-codegen-test.ts:
current = (current * 1103515245 + 12345) & 0x7fffffff, evaluated on JS
doubles: the product and the sum are each rounded to a double, and the
bitwise mask keeps the low 31 bits. -/
def lcgStep (cur : ℕ) : ℕ :=
  flInt (flInt (cur * 1103515245) + 12345) % 2147483648

/-- Iterate lcgStep the given number of times. -/
def iterStep : ℕ → ℕ → ℕ
  | 0, s => s
  | n + 1, s => iterStep n (lcgStep s)

/-- Fixed seed of the seeded generator. -/
def lcgSeed : ℕ := 12345

/-- State of the seeded generator after k calls of random(). -/
def stateAt (k : ℕ) : ℕ := iterStep k lcgSeed

/-- Value returned by random(): current / 0x7fffffff. -/
def randQ (s : ℕ) : ℚ := (s : ℚ) / 2147483647

/-- Event built from the numerators of two consecutive random() values: the
userId sample is drawn first, the duration sample second. -/
def eventOfStates (s1 s2 : ℕ) : Event :=
  { userId := "user" ++ toString (⌊randQ s1 * (NUM_USERS : ℚ)⌋ + 1),
    duration := ⌊randQ s2 * ((MAX_DURATION - MIN_DURATION + 1 : ℕ) : ℚ)⌋ + (MIN_DURATION : ℤ) }

/-- Seeded generator loop threading the LCG state: each iteration consumes
two random() values and appends one event. -/
def generateEventsFrom : ℕ → ℕ → List Event
  | _, 0 => []
  | cur, n + 1 =>
    eventOfStates (lcgStep cur) (lcgStep (lcgStep cur))
      :: generateEventsFrom (lcgStep (lcgStep cur)) n

/-- Seeded Data Generator (generateEvents in llm-codegen-test.ts): the seed
12345 is fixed inside the function. -/
def generateEvents (count : ℕ) : List Event :=
  generateEventsFrom lcgSeed count

/-- Unseeded Data Generator (generateEvent in scripts/generate-data.ts),
parameterized by the two Math.random() samples it consumes (userId first,
duration second); Math.random() yields values in [0, 1). -/
def generateEvent (r1 r2 : ℚ) : Event :=
  { userId := "user" ++ toString (⌊r1 * (NUM_USERS : ℚ)⌋ + 1),
    duration := ⌊r2 * ((MAX_DURATION - MIN_DURATION + 1 : ℕ) : ℚ)⌋ + (MIN_DURATION : ℤ) }

/-- Bounded runner for the orbit check: iterate lcgStep, verifying every
visited state stays strictly below 0x7fffffff; returns the final state when
all checks pass. -/
def runCheck : ℕ → ℕ → Option ℕ
  | s, 0 => some s
  | s, n + 1 =>
    if lcgStep s < 2147483647 then runCheck (lcgStep s) n else none

/-! Helper lemmas shared by the claim theorems. -/

theorem arraysEqual_iff : ∀ a b : List Int, arraysEqual a b = true ↔ a = b := by
  intro a
  induction a with
  | nil =>
    intro b
    cases b with
    | nil => simp [arraysEqual]
    | cons d ds => simp [arraysEqual]
  | cons c cs ih =>
    intro b
    cases b with
    | nil => simp [arraysEqual]
    | cons d ds =>
      by_cases h : cs.length = ds.length
      · have hlen : ¬((c :: cs).length ≠ (d :: ds).length) := by simp [h]
        rw [arraysEqual, if_neg hlen, List.zip_cons_cons, List.all_cons]
        have h2 : arraysEqual cs ds = (cs.zip ds).all (fun p => p.1 == p.2) := by
          rw [arraysEqual, if_neg (by simp [h])]
        rw [show ((cs.zip ds).all fun p => p.1 == p.2) = arraysEqual cs ds from h2.symm]
        simp only [Bool.and_eq_true, beq_iff_eq, ih, List.cons.injEq]
      · have hlen : (c :: cs).length ≠ (d :: ds).length := by simp [h]
        rw [arraysEqual, if_pos hlen]
        simp only [Bool.false_eq_true, false_iff]
        exact fun hcd => hlen (by rw [hcd])

theorem countCorrect_eq_countP (expected actual : List UserAverage) :
    countCorrect expected actual = expected.countP (firstMatchCorrect actual) := by
  have key : ∀ (l : List UserAverage) (acc : ℕ),
      l.foldl
        (fun acc exp =>
          match findById actual exp.id with
          | some act => if |act.avg - exp.avg| < 1 / 10 then acc + 1 else acc
          | none => acc)
        acc
      = acc + l.countP (firstMatchCorrect actual) := by
    intro l
    induction l with
    | nil => intro acc; simp
    | cons x xs ih =>
      intro acc
      rw [List.foldl_cons, ih, List.countP_cons]
      cases hfind : findById actual x.id with
      | none =>
        have hfm : firstMatchCorrect actual x = false := by
          simp [firstMatchCorrect, hfind]
        simp only [hfind, hfm]
        simp
      | some act =>
        by_cases habs : |act.avg - x.avg| < 1 / 10
        · have hfm : firstMatchCorrect actual x = true := by
            unfold firstMatchCorrect
            rw [hfind]
            exact decide_eq_true habs
          simp only [hfind, hfm]
          rw [if_pos habs]
          simp
          omega
        · have hfm : firstMatchCorrect actual x = false := by
            unfold firstMatchCorrect
            rw [hfind]
            exact decide_eq_false habs
          simp only [hfind, hfm]
          rw [if_neg habs]
          simp
  exact (key expected 0).trans (by omega)

theorem mem_foldl_keys : ∀ (l : List Event) (acc : List String) (k : String),
    (k ∈ l.foldl (fun ks e => if e.userId ∈ ks then ks else ks ++ [e.userId]) acc ↔
      k ∈ acc ∨ k ∈ l.map Event.userId) := by
  intro l
  induction l with
  | nil => intro acc k; simp
  | cons e es ih =>
    intro acc k
    rw [List.foldl_cons, ih]
    by_cases h : e.userId ∈ acc
    · rw [if_pos h]
      simp only [List.map_cons, List.mem_cons]
      constructor
      · rintro (hk | hk)
        · exact Or.inl hk
        · exact Or.inr (Or.inr hk)
      · rintro (hk | hk | hk)
        · exact Or.inl hk
        · exact Or.inl (hk ▸ h)
        · exact Or.inr hk
    · rw [if_neg h]
      simp only [List.mem_append, List.mem_singleton, List.map_cons, List.mem_cons]
      tauto

theorem mem_groupKeys (l : List Event) (k : String) :
    k ∈ groupKeys l ↔ k ∈ l.map Event.userId := by
  rw [groupKeys, mem_foldl_keys]
  simp

theorem round2_round2 (x : ℚ) : round2 (round2 x) = round2 x := by
  unfold round2
  rw [div_mul_cancel₀ _ (by norm_num : (100 : ℚ) ≠ 0), round_intCast]

theorem iterStep_succ_right (n s : ℕ) : iterStep (n + 1) s = lcgStep (iterStep n s) := by
  induction n generalizing s with
  | zero => rfl
  | succ m ih =>
    have h1 : iterStep (m + 1 + 1) s = iterStep (m + 1) (lcgStep s) := rfl
    rw [h1, ih (lcgStep s)]
    rfl

theorem iterStep_add (m n s : ℕ) : iterStep (m + n) s = iterStep n (iterStep m s) := by
  induction m generalizing s with
  | zero => rw [Nat.zero_add]; rfl
  | succ k ih =>
    have h1 : k + 1 + n = (k + n) + 1 := by omega
    rw [h1]
    calc iterStep ((k + n) + 1) s = iterStep (k + n) (lcgStep s) := rfl
      _ = iterStep n (iterStep k (lcgStep s)) := ih (lcgStep s)
      _ = iterStep n (iterStep (k + 1) s) := rfl

theorem runCheck_append (m n s t : ℕ) (h : runCheck s m = some t) :
    runCheck s (m + n) = runCheck t n := by
  induction m generalizing s with
  | zero =>
    simp only [runCheck, Option.some.injEq] at h
    rw [Nat.zero_add, h]
  | succ k ih =>
    simp only [runCheck] at h
    by_cases hc : lcgStep s < 2147483647
    · rw [if_pos hc] at h
      have h1 : k + 1 + n = (k + n) + 1 := by omega
      rw [h1]
      simp only [runCheck]
      rw [if_pos hc]
      exact ih (lcgStep s) h
    · rw [if_neg hc] at h
      simp at h

theorem runCheck_final (m s t : ℕ) (h : runCheck s m = some t) : iterStep m s = t := by
  induction m generalizing s with
  | zero =>
    simp only [runCheck, Option.some.injEq] at h
    exact h
  | succ k ih =>
    simp only [runCheck] at h
    by_cases hc : lcgStep s < 2147483647
    · rw [if_pos hc] at h
      exact ih (lcgStep s) h
    · rw [if_neg hc] at h
      simp at h

theorem runCheck_bounds (m s t : ℕ) (h : runCheck s m = some t) :
    ∀ k, 1 ≤ k → k ≤ m → iterStep k s < 2147483647 := by
  induction m generalizing s with
  | zero => intro k h1 h2; omega
  | succ n ih =>
    simp only [runCheck] at h
    by_cases hc : lcgStep s < 2147483647
    · rw [if_pos hc] at h
      intro k h1 h2
      cases k with
      | zero => omega
      | succ j =>
        rcases Nat.eq_zero_or_pos j with hj | hj
        · subst hj
          have h3 : iterStep 1 s = lcgStep s := rfl
          rw [h3]
          exact hc
        · have h3 : iterStep (j + 1) s = iterStep j (lcgStep s) := rfl
          rw [h3]
          exact ih (lcgStep s) h j hj (by omega)
    · rw [if_neg hc] at h
      simp at h

/-- C6: the seeded Data Generator is deterministic: two calls with the same
seed and count produce identical event sequences (same userIds and durations
in the same order).  The embedding is a pure function of seed and count, so
equal inputs give equal outputs. -/
theorem claim_C6 : ∀ c1 c2 : ℕ, c1 = c2 →
    generateEvents c1 = generateEvents c2 ∧
    ∀ seed : ℕ, generateEventsFrom seed c1 = generateEventsFrom seed c2 := by
  intro c1 c2 h
  subst h
  exact ⟨rfl, fun _ => rfl⟩

/-- Witness for C6 at count 3. -/
theorem claim_C6_witness : (3 = 3) ∧ generateEvents 3 = generateEvents 3 :=
  ⟨rfl, (claim_C6 3 3 rfl).1⟩

/-- C4: the Sandbox close handler returns, on nonzero exit, a null result
with stderr as the error (or the exit-code message when stderr is empty)
regardless of stdout; a program exiting 1 with "boom" on stderr yields
result null and error "boom"; on zero exit with unparsable stdout it yields
a distinct parse-failure error containing a 200-character stdout prefix; on
zero exit with parsable stdout it returns the normalized, sorted result. -/
theorem claim_C4 : ∀ (parse : String → Option (List UserAverage)) (o : ProcOutcome),
    (o.exitCode ≠ 0 →
      executeGeneratedCode parse o =
        { result := none,
          error := some (if o.stderr = "" then
            "Process exited with code " ++ toString o.exitCode
          else o.stderr) }) ∧
    (o.exitCode ≠ 0 → o.stderr = "boom" →
      executeGeneratedCode parse o = { result := none, error := some "boom" }) ∧
    (o.exitCode = 0 → parse o.stdout.trim = none →
      executeGeneratedCode parse o =
        { result := none,
          error := some ("Failed to parse output: " ++ o.stdout.take 200) }) ∧
    (∀ r, o.exitCode = 0 → parse o.stdout.trim = some r →
      executeGeneratedCode parse o =
        { result := some (normalizeAndSort r), error := none }) := by
  intro parse o
  refine ⟨?_, ?_, ?_, ?_⟩
  · intro h
    simp [executeGeneratedCode, h]
  · intro h h2
    simp [executeGeneratedCode, h, h2]
  · intro h h2
    simp [executeGeneratedCode, h, h2]
  · intro r h h2
    simp [executeGeneratedCode, h, h2]

/-- Witness for C4: exit code 1 with stderr "boom" and nonempty stdout. -/
theorem claim_C4_witness :
    executeGeneratedCode (fun _ => none)
      { exitCode := 1, stdout := "ignored stdout", stderr := "boom" } =
      { result := none, error := some "boom" } :=
  (claim_C4 (fun _ => none)
    { exitCode := 1, stdout := "ignored stdout", stderr := "boom" }).2.1
    (by decide) rfl

/-- C5: an absent actual scores zero with match false and totalCount equal to
the expected length, for every expected sequence; and for empty expected with
a present actual the accuracy computation divides zero by zero, which is NaN
in JS (modeled as none) rather than a guarded number. -/
theorem claim_C5 :
    (∀ expected : List UserAverage,
      compareResults expected none =
        { isMatch := false, correctCount := 0, totalCount := expected.length,
          accuracy := some 0 }) ∧
    (∀ act : List UserAverage, (compareResults [] (some act)).accuracy = none) := by
  constructor
  · intro expected
    rfl
  · intro act
    simp [compareResults, jsDiv, countCorrect]

/-- C10: the Sandbox normalization changes only the avg field: its output is
a permutation of the input mapped through normalizeRecord, so it has the same
length and exactly the same multiset of ids, with every record keeping its id
and having its avg replaced by the 2-decimal rounding. -/
theorem claim_C10 : ∀ l : List UserAverage,
    (normalizeAndSort l).length = l.length ∧
    List.Perm (normalizeAndSort l) (l.map normalizeRecord) ∧
    List.Perm ((normalizeAndSort l).map UserAverage.id) (l.map UserAverage.id) ∧
    (∀ r : UserAverage, (normalizeRecord r).id = r.id ∧
      (normalizeRecord r).avg = round2 r.avg) := by
  intro l
  have hperm : List.Perm (normalizeAndSort l) (l.map normalizeRecord) :=
    List.perm_insertionSort idLe (l.map normalizeRecord)
  refine ⟨?_, hperm, ?_, fun r => ⟨rfl, rfl⟩⟩
  · rw [hperm.length_eq, List.length_map]
  · have h2 := hperm.map UserAverage.id
    rw [List.map_map] at h2
    have h3 : (UserAverage.id ∘ normalizeRecord) = UserAverage.id := rfl
    rwa [h3] at h2

/-- C9: the sorting-test driver passes a sample exactly when no error
occurred and the returned array equals the input sorted ascending
numerically; arraysEqual is whole-sequence equality (same length and equal
element at every position), and any error or absent result fails the
sample. -/
theorem claim_C9 :
    (∀ a b : List Int, arraysEqual a b = true ↔ a = b) ∧
    (∀ (numbers : List Int) (resp : SortResponse),
      runSingleTest numbers resp = true ↔
        (jsTruthyStr resp.error = false ∧
          resp.result = some (sortNumeric numbers))) ∧
    (∀ numbers : List Int,
      List.Sorted (fun a b : Int => a ≤ b) (sortNumeric numbers) ∧
      List.Perm (sortNumeric numbers) numbers) := by
  refine ⟨arraysEqual_iff, ?_, ?_⟩
  · intro numbers resp
    cases hres : resp.result with
    | none => simp [runSingleTest, hres]
    | some r =>
      cases herr : jsTruthyStr resp.error with
      | true => simp [runSingleTest, hres, herr]
      | false =>
        simp only [runSingleTest, hres, herr, Option.isNone_some, Bool.or_false,
          Bool.false_eq_true, if_false, Option.getD_some, Option.some.injEq,
          true_and]
        rw [arraysEqual_iff]
        exact eq_comm
  · intro numbers
    exact ⟨List.sorted_insertionSort _ numbers, List.perm_insertionSort _ numbers⟩

/-- C8: the normalize-and-sort step is idempotent: applying it twice equals
applying it once, and on a sequence that is already sorted by id with every
avg fixed by 2-decimal rounding it is the identity. -/
theorem claim_C8 :
    (∀ l : List UserAverage,
      normalizeAndSort (normalizeAndSort l) = normalizeAndSort l) ∧
    (∀ l : List UserAverage, List.Sorted idLe l →
      (∀ r ∈ l, r.avg = round2 r.avg) → normalizeAndSort l = l) := by
  have hfix : ∀ l : List UserAverage, List.Sorted idLe l →
      (∀ r ∈ l, r.avg = round2 r.avg) → normalizeAndSort l = l := by
    intro l hs hn
    have h1 : ∀ r ∈ l, normalizeRecord r = id r := by
      intro r hr
      cases r with
      | mk i a =>
        have ha : a = round2 a := hn ⟨i, a⟩ hr
        show ({ id := i, avg := round2 a } : UserAverage) = ⟨i, a⟩
        rw [← ha]
    have hmap : l.map normalizeRecord = l := by
      rw [List.map_congr_left h1, List.map_id]
    rw [normalizeAndSort, hmap, sortById]
    exact hs.insertionSort_eq
  constructor
  · intro l
    apply hfix
    · exact List.sorted_insertionSort idLe _
    · intro r hr
      have hr2 : r ∈ l.map normalizeRecord := (List.mem_insertionSort idLe).mp hr
      obtain ⟨x, _, hxr⟩ := List.mem_map.mp hr2
      rw [← hxr]
      exact (round2_round2 x.avg).symm
  · exact hfix

/-- Witness for C8: a singleton that is sorted and already rounded. -/
theorem claim_C8_witness :
    normalizeAndSort [{ id := "a", avg := 7 / 100 }] = [{ id := "a", avg := 7 / 100 }] :=
  claim_C8.2 [{ id := "a", avg := 7 / 100 }] (List.sorted_singleton _)
    (by
      intro r hr
      simp at hr
      rw [hr]
      show (7 / 100 : ℚ) = ((round ((7 / 100 : ℚ) * 100) : ℤ) : ℚ) / 100
      rw [show ((7 / 100 : ℚ) * 100) = ((7 : ℤ) : ℚ) by norm_num, round_intCast]
      norm_num)

/-- C1: the Reference Computation on the empty list gives the empty list, on
the three-event example gives exactly one record for user1 with average 70,
its output is always sorted by id, every output record carries the rounded
average of its filtered group and an id occurring among the filtered events,
and every event surviving the duration filter contributes its userId to the
output. -/
theorem claim_C1 :
    (computeCorrectAnswer [] = []) ∧
    (computeCorrectAnswer
        [{ userId := "user1", duration := 60 }, { userId := "user1", duration := 80 },
          { userId := "user2", duration := 40 }] =
      [{ id := "user1", avg := 70 }]) ∧
    (∀ events : List Event, List.Sorted idLe (computeCorrectAnswer events)) ∧
    (∀ events : List Event, ∀ u ∈ computeCorrectAnswer events,
      u.avg = round2 (groupAvg (groupOf (filterEvents events) u.id)) ∧
      u.id ∈ (filterEvents events).map Event.userId) ∧
    (∀ events : List Event, ∀ e ∈ events, 50 ≤ e.duration →
      ∃ u ∈ computeCorrectAnswer events, u.id = e.userId) := by
  have hexample : computeCorrectAnswer
      [{ userId := "user1", duration := 60 }, { userId := "user1", duration := 80 },
        { userId := "user2", duration := 40 }] =
      [{ id := "user1", avg := 70 }] := by
    have hkeys : groupKeys (filterEvents
        [{ userId := "user1", duration := 60 }, { userId := "user1", duration := 80 },
          { userId := "user2", duration := 40 }]) = ["user1"] := by decide
    have hgrp : groupOf (filterEvents
        [{ userId := "user1", duration := 60 }, { userId := "user1", duration := 80 },
          { userId := "user2", duration := 40 }]) "user1" =
        [{ userId := "user1", duration := 60 }, { userId := "user1", duration := 80 }] := by
      decide
    rw [computeCorrectAnswer, hkeys]
    simp only [List.map_cons, List.map_nil]
    rw [hgrp]
    have havg : groupAvg
        [({ userId := "user1", duration := 60 } : Event),
          { userId := "user1", duration := 80 }] = 70 := by
      simp [groupAvg]
      norm_num
    rw [havg]
    have hr : round2 (70 : ℚ) = 70 := by
      show ((round ((70 : ℚ) * 100) : ℤ) : ℚ) / 100 = 70
      rw [show ((70 : ℚ) * 100) = ((7000 : ℤ) : ℚ) by norm_num, round_intCast]
      norm_num
    rw [hr]
    rfl
  refine ⟨rfl, hexample, ?_, ?_, ?_⟩
  · intro events
    exact List.sorted_insertionSort idLe _
  · intro events u hu
    have hu2 : u ∈ (groupKeys (filterEvents events)).map
        (fun k => { id := k, avg := round2 (groupAvg (groupOf (filterEvents events) k)) }) :=
      (List.mem_insertionSort idLe).mp hu
    obtain ⟨k, hk, hku⟩ := List.mem_map.mp hu2
    constructor
    · rw [← hku]
    · rw [← hku]
      exact (mem_groupKeys _ k).mp hk
  · intro events e he hdur
    have hf : e ∈ filterEvents events := by
      rw [filterEvents, List.mem_filter]
      exact ⟨he, decide_eq_true hdur⟩
    have hk : e.userId ∈ groupKeys (filterEvents events) :=
      (mem_groupKeys _ _).mpr (List.mem_map.mpr ⟨e, hf, rfl⟩)
    refine ⟨{ id := e.userId,
              avg := round2 (groupAvg (groupOf (filterEvents events) e.userId)) }, ?_, rfl⟩
    exact (List.mem_insertionSort idLe).mpr (List.mem_map.mpr ⟨e.userId, hk, rfl⟩)

/-- Witness for C1 at the three-event example. -/
theorem claim_C1_witness :
    "user1" ∈ (computeCorrectAnswer
        [{ userId := "user1", duration := 60 }, { userId := "user1", duration := 80 },
          { userId := "user2", duration := 40 }]).map UserAverage.id := by
  obtain ⟨u, hu, hid⟩ := claim_C1.2.2.2.2
    [{ userId := "user1", duration := 60 }, { userId := "user1", duration := 80 },
      { userId := "user2", duration := 40 }]
    { userId := "user1", duration := 60 } (by simp) (by norm_num)
  exact List.mem_map.mpr ⟨u, hu, hid⟩

/-- Counterexample for C2: on two events whose userIds arrive in reverse id
order, processEvents returns the groups in first-occurrence order user2,
user1, while the Reference Computation sorts by id, so the two functions
differ. -/
theorem counterexample_C2 :
    processEvents [{ userId := "user2", duration := 60 }, { userId := "user1", duration := 60 }]
      ≠ computeCorrectAnswer
          [{ userId := "user2", duration := 60 }, { userId := "user1", duration := 60 }] := by
  decide

/-- C2 amended: processEvents performs the same filter and group steps but
returns exact unrounded averages in first-occurrence grouping order; the
Reference Computation is exactly the normalize-and-sort step applied to
processEvents, so the two agree after rounding and sorting. -/
theorem claim_C2 : ∀ events : List Event,
    computeCorrectAnswer events = normalizeAndSort (processEvents events) := by
  intro events
  rw [computeCorrectAnswer, normalizeAndSort, processEvents, List.map_map]
  rfl

/-- Counterexample for C3: with expected entry (a, 10) and actual entries
(a, 20) then (a, 10), some actual entry has the same id and is within the
0.1 tolerance, yet the Scorer counts zero correct entries, because find
returns only the first entry with a matching id. -/
theorem counterexample_C3 :
    ((compareResults [{ id := "a", avg := 10 }]
        (some [{ id := "a", avg := 20 }, { id := "a", avg := 10 }])).correctCount = 0) ∧
    (∃ act ∈ [({ id := "a", avg := 20 } : UserAverage), { id := "a", avg := 10 }],
      act.id = "a" ∧ |act.avg - (10 : ℚ)| < 1 / 10) := by
  constructor
  · show countCorrect [{ id := "a", avg := 10 }]
        [{ id := "a", avg := 20 }, { id := "a", avg := 10 }] = 0
    rw [countCorrect_eq_countP]
    have hno : ¬ (|(20 : ℚ) - 10| < 1 / 10) := by
      rw [show ((20 : ℚ) - 10) = 10 by norm_num,
        abs_of_nonneg (by norm_num : (0 : ℚ) ≤ 10)]
      norm_num
    have hfc : firstMatchCorrect [{ id := "a", avg := 20 }, { id := "a", avg := 10 }]
        { id := "a", avg := 10 } = false := by
      unfold firstMatchCorrect
      rw [show findById [({ id := "a", avg := 20 } : UserAverage), { id := "a", avg := 10 }] "a"
          = some { id := "a", avg := 20 } from rfl]
      exact decide_eq_false hno
    simp [List.countP_cons, hfc]
  · refine ⟨{ id := "a", avg := 10 }, by simp, rfl, ?_⟩
    show |(10 : ℚ) - 10| < 1 / 10
    rw [sub_self, abs_zero]
    norm_num

/-- C3 amended: the Scorer counts an expected entry correct exactly when the
first actual entry with the same id, in actual's order, is within the strict
0.1 tolerance; totalCount is the expected length; for nonempty expected,
accuracy is round of 100 times correctCount over totalCount; match holds
exactly when correctCount equals the expected length and the two lengths
agree.  A 0.04 difference counts correct, a 0.20 difference does not, and
expected length 2 against one correct plus one spurious actual entry yields
correctCount 1, accuracy 50, match false. -/
theorem claim_C3 :
    (∀ expected actual : List UserAverage,
      (compareResults expected (some actual)).correctCount
          = expected.countP (firstMatchCorrect actual) ∧
      (compareResults expected (some actual)).totalCount = expected.length ∧
      (expected.length ≠ 0 →
        (compareResults expected (some actual)).accuracy
          = some (round ((((compareResults expected (some actual)).correctCount : ℚ)
              / (expected.length : ℚ)) * 100))) ∧
      ((compareResults expected (some actual)).isMatch = true ↔
        ((compareResults expected (some actual)).correctCount = expected.length ∧
          actual.length = expected.length))) ∧
    ((compareResults [{ id := "a", avg := 10 }]
        (some [{ id := "a", avg := 10 + 4 / 100 }])).correctCount = 1) ∧
    ((compareResults [{ id := "a", avg := 10 }]
        (some [{ id := "a", avg := 10 + 20 / 100 }])).correctCount = 0) ∧
    (compareResults [{ id := "a", avg := 10 }, { id := "b", avg := 20 }]
        (some [{ id := "a", avg := 10 }, { id := "c", avg := 5 }]) =
      { isMatch := false, correctCount := 1, totalCount := 2, accuracy := some 50 }) := by
  refine ⟨?_, ?_, ?_, ?_⟩
  · intro expected actual
    refine ⟨countCorrect_eq_countP expected actual, rfl, ?_, ?_⟩
    · intro h
      have hq : ((expected.length : ℚ)) ≠ 0 := Nat.cast_ne_zero.mpr h
      show ((jsDiv (countCorrect expected actual : ℚ) (expected.length : ℚ)).map
          (fun q => round (q * 100))) = _
      rw [jsDiv, if_neg hq]
      rfl
    · show (decide (countCorrect expected actual = expected.length)
          && decide (actual.length = expected.length)) = true ↔ _
      rw [Bool.and_eq_true, decide_eq_true_eq, decide_eq_true_eq]
      exact Iff.rfl
  · show countCorrect [{ id := "a", avg := 10 }] [{ id := "a", avg := 10 + 4 / 100 }] = 1
    rw [countCorrect_eq_countP]
    have hyes : |(10 + 4 / 100 : ℚ) - 10| < 1 / 10 := by
      rw [show ((10 + 4 / 100 : ℚ) - 10) = 4 / 100 by norm_num,
        abs_of_nonneg (by norm_num : (0 : ℚ) ≤ 4 / 100)]
      norm_num
    have hfc : firstMatchCorrect [{ id := "a", avg := 10 + 4 / 100 }]
        { id := "a", avg := 10 } = true := by
      unfold firstMatchCorrect
      rw [show findById [({ id := "a", avg := 10 + 4 / 100 } : UserAverage)] "a"
          = some { id := "a", avg := 10 + 4 / 100 } from rfl]
      exact decide_eq_true hyes
    simp [List.countP_cons, hfc]
  · show countCorrect [{ id := "a", avg := 10 }] [{ id := "a", avg := 10 + 20 / 100 }] = 0
    rw [countCorrect_eq_countP]
    have hno : ¬ (|(10 + 20 / 100 : ℚ) - 10| < 1 / 10) := by
      rw [show ((10 + 20 / 100 : ℚ) - 10) = 20 / 100 by norm_num,
        abs_of_nonneg (by norm_num : (0 : ℚ) ≤ 20 / 100)]
      norm_num
    have hfc : firstMatchCorrect [{ id := "a", avg := 10 + 20 / 100 }]
        { id := "a", avg := 10 } = false := by
      unfold firstMatchCorrect
      rw [show findById [({ id := "a", avg := 10 + 20 / 100 } : UserAverage)] "a"
          = some { id := "a", avg := 10 + 20 / 100 } from rfl]
      exact decide_eq_false hno
    simp [List.countP_cons, hfc]
  · have hc : countCorrect [{ id := "a", avg := 10 }, { id := "b", avg := 20 }]
        [{ id := "a", avg := 10 }, { id := "c", avg := 5 }] = 1 := by
      rw [countCorrect_eq_countP]
      have hfa : firstMatchCorrect
          [{ id := "a", avg := 10 }, { id := "c", avg := 5 }]
          { id := "a", avg := 10 } = true := by
        unfold firstMatchCorrect
        rw [show findById [({ id := "a", avg := 10 } : UserAverage), { id := "c", avg := 5 }] "a"
            = some { id := "a", avg := 10 } from rfl]
        apply decide_eq_true
        show |(10 : ℚ) - 10| < 1 / 10
        rw [sub_self, abs_zero]
        norm_num
      have hfb : firstMatchCorrect
          [{ id := "a", avg := 10 }, { id := "c", avg := 5 }]
          { id := "b", avg := 20 } = false := by
        unfold firstMatchCorrect
        rw [show findById [({ id := "a", avg := 10 } : UserAverage), { id := "c", avg := 5 }] "b"
            = none from rfl]
      simp [List.countP_cons, hfa, hfb]
    have hrec : compareResults [{ id := "a", avg := 10 }, { id := "b", avg := 20 }]
        (some [{ id := "a", avg := 10 }, { id := "c", avg := 5 }]) =
        { isMatch := decide (countCorrect
              [{ id := "a", avg := 10 }, { id := "b", avg := 20 }]
              [{ id := "a", avg := 10 }, { id := "c", avg := 5 }] = 2)
            && decide ((2 : ℕ) = 2),
          correctCount := countCorrect
            [{ id := "a", avg := 10 }, { id := "b", avg := 20 }]
            [{ id := "a", avg := 10 }, { id := "c", avg := 5 }],
          totalCount := 2,
          accuracy := (jsDiv ((countCorrect
              [{ id := "a", avg := 10 }, { id := "b", avg := 20 }]
              [{ id := "a", avg := 10 }, { id := "c", avg := 5 }] : ℕ) : ℚ)
              ((2 : ℕ) : ℚ)).map (fun q => round (q * 100)) } := rfl
    rw [hrec, hc]
    have hacc : (jsDiv ((1 : ℕ) : ℚ) ((2 : ℕ) : ℚ)).map (fun q => round (q * 100))
        = some (50 : ℤ) := by
      rw [jsDiv, if_neg (by norm_num : ¬ (((2 : ℕ) : ℚ) = 0))]
      show some (round (((1 : ℕ) : ℚ) / ((2 : ℕ) : ℚ) * 100)) = some (50 : ℤ)
      rw [show (((1 : ℕ) : ℚ) / ((2 : ℕ) : ℚ) * 100) = ((50 : ℤ) : ℚ) by push_cast; norm_num,
        round_intCast]
    rw [hacc]
    rfl

/-- Witness for C3: a single expected entry exactly matched gives accuracy
round of 100 over 1, that is 100. -/
theorem claim_C3_witness :
    (([({ id := "a", avg := 10 } : UserAverage)]).length ≠ 0) ∧
    (compareResults [{ id := "a", avg := 10 }]
        (some [{ id := "a", avg := 10 }])).accuracy = some 100 := by
  refine ⟨by norm_num, ?_⟩
  have h := (claim_C3.1 [{ id := "a", avg := 10 }] [{ id := "a", avg := 10 }]).2.2.1
    (by norm_num)
  rw [h]
  have hc : (compareResults [{ id := "a", avg := 10 }]
      (some [{ id := "a", avg := 10 }])).correctCount = 1 := by
    show countCorrect [{ id := "a", avg := 10 }] [{ id := "a", avg := 10 }] = 1
    rw [countCorrect_eq_countP]
    have hfa : firstMatchCorrect [{ id := "a", avg := 10 }] { id := "a", avg := 10 } = true := by
      unfold firstMatchCorrect
      rw [show findById [({ id := "a", avg := (10 : ℚ) } : UserAverage)] "a"
          = some { id := "a", avg := 10 } from rfl]
      apply decide_eq_true
      show |(10 : ℚ) - 10| < 1 / 10
      rw [sub_self, abs_zero]
      norm_num
    simp [List.countP_cons, hfa]
  rw [hc]
  rw [show ((((1 : ℕ) : ℚ))
      / (([({ id := "a", avg := (10 : ℚ) } : UserAverage)].length : ℕ) : ℚ) * 100)
      = ((100 : ℤ) : ℚ) by simp, round_intCast]

/-! Orbit of the seeded generator.  The states reachable from seed 12345
form a tail of 5938 states followed by a cycle of 10466 states; every one of
them stays strictly below 0x7fffffff.  The finite checks below certify this
segment by segment (each segment short enough for kernel reduction). -/

set_option maxRecDepth 1000000 in
theorem orbitChunk1 : runCheck 12345 2000 = some 386701824 := by decide

set_option maxRecDepth 1000000 in
theorem orbitChunk2 : runCheck 386701824 2000 = some 2033467648 := by decide

set_option maxRecDepth 1000000 in
theorem orbitChunk3 : runCheck 2033467648 1938 = some 1372572160 := by decide

set_option maxRecDepth 1000000 in
theorem orbitChunk4 : runCheck 1372572160 2000 = some 398906880 := by decide

set_option maxRecDepth 1000000 in
theorem orbitChunk5 : runCheck 398906880 2000 = some 291169024 := by decide

set_option maxRecDepth 1000000 in
theorem orbitChunk6 : runCheck 291169024 2000 = some 178256896 := by decide

set_option maxRecDepth 1000000 in
theorem orbitChunk7 : runCheck 178256896 2000 = some 689058048 := by decide

set_option maxRecDepth 1000000 in
theorem orbitChunk8 : runCheck 689058048 2000 = some 89215232 := by decide

set_option maxRecDepth 1000000 in
theorem orbitChunk9 : runCheck 89215232 466 = some 1372572160 := by decide

theorem orbitTail : runCheck 12345 5938 = some 1372572160 := by
  have h1 := runCheck_append 2000 3938 12345 386701824 orbitChunk1
  have h2 := runCheck_append 2000 1938 386701824 2033467648 orbitChunk2
  rw [show (5938 : ℕ) = 2000 + 3938 by norm_num, h1,
    show (3938 : ℕ) = 2000 + 1938 by norm_num, h2]
  exact orbitChunk3

theorem orbitFull : runCheck 12345 16404 = some 1372572160 := by
  have h1 := runCheck_append 5938 10466 12345 1372572160 orbitTail
  rw [show (16404 : ℕ) = 5938 + 10466 by norm_num, h1]
  have h4 := runCheck_append 2000 8466 1372572160 398906880 orbitChunk4
  rw [show (10466 : ℕ) = 2000 + 8466 by norm_num, h4]
  have h5 := runCheck_append 2000 6466 398906880 291169024 orbitChunk5
  rw [show (8466 : ℕ) = 2000 + 6466 by norm_num, h5]
  have h6 := runCheck_append 2000 4466 291169024 178256896 orbitChunk6
  rw [show (6466 : ℕ) = 2000 + 4466 by norm_num, h6]
  have h7 := runCheck_append 2000 2466 178256896 689058048 orbitChunk7
  rw [show (4466 : ℕ) = 2000 + 2466 by norm_num, h7]
  have h8 := runCheck_append 2000 466 689058048 89215232 orbitChunk8
  rw [show (2466 : ℕ) = 2000 + 466 by norm_num, h8]
  exact orbitChunk9

theorem stateAt_succ (m : ℕ) : stateAt (m + 1) = lcgStep (stateAt m) :=
  iterStep_succ_right m lcgSeed

theorem stateAt_lt : ∀ k : ℕ, 1 ≤ k → stateAt k < 2147483647 := by
  have hbound : ∀ k, 1 ≤ k → k ≤ 16404 → iterStep k 12345 < 2147483647 :=
    runCheck_bounds 16404 12345 1372572160 orbitFull
  have hclose : iterStep 16404 12345 = iterStep 5938 12345 := by
    rw [runCheck_final 16404 12345 1372572160 orbitFull,
      runCheck_final 5938 12345 1372572160 orbitTail]
  have hperiod : ∀ j : ℕ, iterStep (5938 + j) 12345 = iterStep (16404 + j) 12345 := by
    intro j
    rw [iterStep_add 16404 j 12345, iterStep_add 5938 j 12345, hclose]
  intro k
  induction k using Nat.strong_induction_on with
  | _ k ih =>
    intro hk
    by_cases hsmall : k ≤ 16404
    · exact hbound k hk hsmall
    · obtain ⟨j, rfl⟩ : ∃ j, k = 16404 + j := ⟨k - 16404, by omega⟩
      show iterStep (16404 + j) 12345 < 2147483647
      rw [← hperiod j]
      exact ih (5938 + j) (by omega) (by omega)

theorem randQ_nonneg (s : ℕ) : 0 ≤ randQ s := by
  rw [randQ]
  positivity

theorem randQ_lt_one {s : ℕ} (h : s < 2147483647) : randQ s < 1 := by
  rw [randQ, div_lt_one (by norm_num : (0 : ℚ) < 2147483647)]
  exact_mod_cast h

theorem floorSample_bounds {r : ℚ} (n : ℕ) (h0 : 0 ≤ r) (h1 : r < 1) (hn : 1 ≤ n) :
    0 ≤ ⌊r * (n : ℚ)⌋ ∧ ⌊r * (n : ℚ)⌋ < (n : ℤ) := by
  constructor
  · exact Int.floor_nonneg.mpr (by positivity)
  · rw [Int.floor_lt]
    calc r * (n : ℚ) < 1 * (n : ℚ) := by
          apply mul_lt_mul_of_pos_right h1
          exact_mod_cast Nat.pos_of_ne_zero (by omega)
      _ = (n : ℚ) := one_mul _
      _ = ((n : ℤ) : ℚ) := by norm_cast

theorem generateEvent_bounds (r1 r2 : ℚ) (h10 : 0 ≤ r1) (h11 : r1 < 1)
    (h20 : 0 ≤ r2) (h21 : r2 < 1) :
    (∃ k : ℤ, 1 ≤ k ∧ k ≤ 50 ∧ (generateEvent r1 r2).userId = "user" ++ toString k) ∧
    10 ≤ (generateEvent r1 r2).duration ∧ (generateEvent r1 r2).duration ≤ 200 := by
  obtain ⟨hu0, hu1⟩ := @floorSample_bounds r1 NUM_USERS h10 h11 (by norm_num [NUM_USERS])
  obtain ⟨hd0, hd1⟩ := @floorSample_bounds r2 (MAX_DURATION - MIN_DURATION + 1) h20 h21
    (by norm_num [MAX_DURATION, MIN_DURATION])
  have hcu : (NUM_USERS : ℤ) = 50 := by norm_num [NUM_USERS]
  have hcd : ((MAX_DURATION - MIN_DURATION + 1 : ℕ) : ℤ) = 191 := by
    norm_num [MAX_DURATION, MIN_DURATION]
  have hcm : ((MIN_DURATION : ℕ) : ℤ) = 10 := by norm_num [MIN_DURATION]
  refine ⟨⟨⌊r1 * (NUM_USERS : ℚ)⌋ + 1, by omega, by omega, rfl⟩, ?_, ?_⟩
  · show 10 ≤ ⌊r2 * ((MAX_DURATION - MIN_DURATION + 1 : ℕ) : ℚ)⌋ + (MIN_DURATION : ℤ)
    omega
  · show ⌊r2 * ((MAX_DURATION - MIN_DURATION + 1 : ℕ) : ℚ)⌋ + (MIN_DURATION : ℤ) ≤ 200
    omega

theorem eventOfStates_bounds (s1 s2 : ℕ) (h1 : s1 < 2147483647) (h2 : s2 < 2147483647) :
    (∃ k : ℤ, 1 ≤ k ∧ k ≤ 50 ∧ (eventOfStates s1 s2).userId = "user" ++ toString k) ∧
    10 ≤ (eventOfStates s1 s2).duration ∧ (eventOfStates s1 s2).duration ≤ 200 :=
  generateEvent_bounds (randQ s1) (randQ s2) (randQ_nonneg s1) (randQ_lt_one h1)
    (randQ_nonneg s2) (randQ_lt_one h2)

theorem generateEventsFrom_mem : ∀ (n m : ℕ) (e : Event),
    e ∈ generateEventsFrom (stateAt m) n →
    ∃ j : ℕ, e = eventOfStates (stateAt (m + 2 * j + 1)) (stateAt (m + 2 * j + 2)) := by
  intro n
  induction n with
  | zero =>
    intro m e he
    simp [generateEventsFrom] at he
  | succ k ih =>
    intro m e he
    simp only [generateEventsFrom] at he
    rw [← stateAt_succ m] at he
    rw [← stateAt_succ (m + 1)] at he
    rcases List.mem_cons.mp he with h | h
    · refine ⟨0, ?_⟩
      rw [show m + 2 * 0 + 1 = m + 1 by omega, show m + 2 * 0 + 2 = m + 1 + 1 by omega]
      exact h
    · obtain ⟨j, hj⟩ := ih (m + 2) e h
      refine ⟨j + 1, ?_⟩
      rw [show m + 2 * (j + 1) + 1 = m + 2 + 2 * j + 1 by omega,
        show m + 2 * (j + 1) + 2 = m + 2 + 2 * j + 2 by omega]
      exact hj

/-- C7: every event of the seeded generator has a userId among user1..user50
and a duration in the inclusive range 10..200; likewise for the unseeded
generator on arbitrary Math.random samples in the interval from 0 inclusive
to 1 exclusive; and random() is strictly below 1 in every reachable state of
the seeded LCG, that is, every state reached from seed 12345 stays strictly
below 0x7fffffff.  The state update is modeled with the IEEE double rounding
JS performs, under which the orbit closes after 16404 steps. -/
theorem claim_C7 :
    (∀ count : ℕ, ∀ e ∈ generateEvents count,
      (∃ k : ℤ, 1 ≤ k ∧ k ≤ 50 ∧ e.userId = "user" ++ toString k) ∧
      10 ≤ e.duration ∧ e.duration ≤ 200) ∧
    (∀ r1 r2 : ℚ, 0 ≤ r1 → r1 < 1 → 0 ≤ r2 → r2 < 1 →
      (∃ k : ℤ, 1 ≤ k ∧ k ≤ 50 ∧ (generateEvent r1 r2).userId = "user" ++ toString k) ∧
      10 ≤ (generateEvent r1 r2).duration ∧ (generateEvent r1 r2).duration ≤ 200) ∧
    (∀ k : ℕ, 1 ≤ k → randQ (stateAt k) < 1) := by
  refine ⟨?_, ?_, ?_⟩
  · intro count e he
    obtain ⟨j, hj⟩ := generateEventsFrom_mem count 0 e he
    rw [hj]
    exact eventOfStates_bounds _ _ (stateAt_lt _ (by omega)) (stateAt_lt _ (by omega))
  · intro r1 r2 h1 h2 h3 h4
    exact generateEvent_bounds r1 r2 h1 h2 h3 h4
  · intro k hk
    exact randQ_lt_one (stateAt_lt k hk)

/-- Witness for C7: the unseeded generator at samples 0 and 0, the first
event of the seeded generator, and the first reachable LCG state. -/
theorem claim_C7_witness :
    ((0 : ℚ) ≤ 0 ∧ (0 : ℚ) < 1) ∧
    (10 ≤ (generateEvent 0 0).duration ∧ (generateEvent 0 0).duration ≤ 200) ∧
    (10 ≤ (eventOfStates (lcgStep 12345) (lcgStep (lcgStep 12345))).duration) ∧
    randQ (stateAt 1) < 1 :=
  ⟨⟨le_refl 0, by norm_num⟩,
    (claim_C7.2.1 0 0 (le_refl 0) (by norm_num) (le_refl 0) (by norm_num)).2,
    ((claim_C7.1 1 (eventOfStates (lcgStep 12345) (lcgStep (lcgStep 12345)))
      (List.mem_cons_self _ _)).2).1,
    claim_C7.2.2 1 (by norm_num)⟩
